import Mathlib

/-!
Verification development for the solid index crawler (index-crawler.py).

The crawler walks a distributed graph of linked-data index documents:
per server it fetches the root document, follows the public type index to
instance containers, and recursively expands index documents, persisting
each one locally and accumulating a registry of everything visited.
Leaf documents (property indexes) are reconciled against the previously
persisted version by a graph merge.

We shallowly embed the Python source: documents become records over the
fields the crawler reads, Python dicts become insertion-ordered
association lists, the file system becomes an explicit store keyed by the
derived file path, exceptions become an error type threaded through an
outcome type that also carries the state at raise time (Python mutates
`aggregated_data` and the file system in place, so partial effects
survive an exception), and the unbounded recursion of `process_indexes`
gets an explicit fuel parameter.
-/

set_option autoImplicit false

namespace SolidIndexer

/-- A graph node (an entry of a document's "@graph" list), restricted to
the fields the crawler reads.  Absent JSON keys are `none`. -/
structure Node where
  id : Option String
  type : Option String
  publicTypeIndex : Option String
  forClass : Option String
  instanceContainer : Option String
  instancesIn : Option String
  seeAlso : Option String
deriving DecidableEq, Repr

/-- A node with every field absent; concrete nodes are built by record
update from it. -/
def blankNode : Node :=
  { id := none, type := none, publicTypeIndex := none, forClass := none,
    instanceContainer := none, instancesIn := none, seeAlso := none }

/-- A JSON-LD document, restricted to the top-level fields the crawler
reads or writes.  `data.get("@graph", [])` makes an absent graph
indistinguishable from an empty one, so `graph` is a plain list. -/
structure Doc where
  context : Option String
  id : Option String
  type : Option String
  graph : List Node
deriving DecidableEq, Repr

/-- The Python exceptions the crawler can raise: `requests.RequestException`
(transport), `KeyError` (a missing "@id" or "solid:instanceContainer"
under bracket access), `json.JSONDecodeError` (unreadable cached file).
`fuel` is the embedding artifact standing for a computation that has not
returned within the given recursion budget. -/
inductive Err where
  | transport
  | keyError
  | jsonDecode
  | fuel
deriving DecidableEq, Repr

/-- Python truthiness filter for optional strings: `None` and `""` are
falsy.  `pyTruthy o` is `some s` exactly when `o` holds a truthy value. -/
def pyTruthy (o : Option String) : Option String :=
  match o with
  | some s => if s = "" then none else some s
  | none => none

/-! ### Python dicts as insertion-ordered association lists

`{item['@id']: item for item in ...}` builds a dict in insertion order,
later items overwriting earlier ones for duplicate keys, and
`{**old, **new}` keeps old insertion order while new values win. -/

/-- Insert into a Python-style dict: overwrite in place when the key is
already present, append otherwise. -/
def insertDict (d : List (String × Node)) (k : String) (v : Node) :
    List (String × Node) :=
  if k ∈ d.map Prod.fst then
    d.map (fun p => if p.1 = k then (k, v) else p)
  else d ++ [(k, v)]

/-- `{**a, **b}`: start from `a` and insert every entry of `b`. -/
def mergeDicts (a b : List (String × Node)) : List (String × Node) :=
  b.foldl (fun acc p => insertDict acc p.1 p.2) a

/-- `{item['@id']: item for item in g}` with bracket access:
a node without "@id" raises `KeyError`. -/
def graphDictGo (acc : List (String × Node)) :
    List Node → Except Err (List (String × Node))
  | [] => .ok acc
  | item :: rest =>
    match item.id with
    | none => .error .keyError
    | some k => graphDictGo (insertDict acc k item) rest

/-- The graph dict of a document's "@graph" list. -/
def graphDict (g : List Node) : Except Err (List (String × Node)) :=
  graphDictGo [] g

/-- `set(item['@id'] for item in g)` with bracket access. -/
def idsOf : List Node → Except Err (List String)
  | [] => .ok []
  | item :: rest =>
    match item.id with
    | none => .error .keyError
    | some k =>
      match idsOf rest with
      | .ok ks => .ok (k :: ks)
      | .error e => .error e

/-- `diff_references(old_data, new_data)`: the set of "@id"s present in
the new document's graph but not in the old one's. -/
def diff_references (old_data new_data : Doc) : Except Err (Finset String) :=
  match idsOf old_data.graph, idsOf new_data.graph with
  | .ok os, .ok ns => .ok (ns.toFinset \ os.toFinset)
  | .error e, _ => .error e
  | _, .error e => .error e

/-- The reference set of a graph: the collected "@id" values (total
variant used in specifications; it agrees with `idsOf` whenever every
node carries an "@id"). -/
def refsOf (g : List Node) : Finset String :=
  (g.filterMap Node.id).toFinset

/-- The merge step of `save_data` (lines 36-54) for a present cached
document: if the fresh document contributes no new reference, the fresh
document wins wholesale; otherwise the two graph dicts are merged (new
entries overwrite old ones per key) and the result keeps the OLD
document's "@context" and consists of only "@context" and "@graph". -/
def mergeCached (old_data data : Doc) : Except Err Doc :=
  match diff_references old_data data with
  | .error e => .error e
  | .ok differences =>
    if differences = ∅ then .ok data
    else
      match graphDict old_data.graph, graphDict data.graph with
      | .ok old_graph, .ok new_graph =>
        .ok { context := old_data.context, id := none, type := none,
              graph := (mergeDicts old_graph new_graph).map Prod.snd }
      | .error e, _ => .error e
      | _, .error e => .error e

/-! ### File paths and the local document store

`save_data` derives the file path from `urlparse(url).path`: leading
slashes are stripped, leaf saves additionally strip trailing slashes,
and ".jsonld" is appended.  The host and scheme never enter the key. -/

/-- Characters of the path component: everything from the first '/'
after the netloc (empty when the URL has no path). -/
def pathChars : List Char → List Char
  | [] => []
  | c :: cs => if c = '/' then c :: cs else pathChars cs

/-- Characters following the first "://" separator, when present. -/
def schemeRest : List Char → Option (List Char)
  | [] => none
  | ':' :: '/' :: '/' :: rest => some rest
  | _ :: cs => schemeRest cs

/-- Models `urlparse(url).path` for the URL shapes the crawler handles:
for scheme://netloc/path the path component, for a string without "://"
the string itself (relative reference). -/
def urlPath (s : String) : String :=
  match schemeRest s.toList with
  | some rest => String.mk (pathChars rest)
  | none => s

/-- `s.lstrip('/')`. -/
def lstripSlash (s : String) : String :=
  String.mk (s.toList.dropWhile (fun c => c = '/'))

/-- `s.rstrip('/')`. -/
def rstripSlash (s : String) : String :=
  String.mk ((s.toList.reverse.dropWhile (fun c => c = '/')).reverse)

/-- The file path a leaf save (save_as_file=True) uses for a URL. -/
def leafPath (url : String) : String :=
  rstripSlash (lstripSlash (urlPath url)) ++ ".jsonld"

/-- The file path a container save (save_as_file=False) uses for a URL. -/
def containerPath (url : String) : String :=
  let p := lstripSlash (urlPath url)
  (if p = "" then "./" else p) ++ ".jsonld"

/-- A cached file on disk: either a parseable document or unreadable
content on which `json.load` raises. -/
inductive CacheEntry where
  | malformed
  | doc (d : Doc)
deriving DecidableEq, Repr

/-- The local file system, keyed by file path. -/
abbrev Store := List (String × CacheEntry)

/-- Read a file: `none` when it does not exist. -/
def readStore (st : Store) (k : String) : Option CacheEntry :=
  (st.find? (fun p => p.1 == k)).map Prod.snd

/-- Write a file, overwriting any previous content. -/
def writeStore (st : Store) (k : String) (v : CacheEntry) : Store :=
  if k ∈ st.map Prod.fst then
    st.map (fun p => if p.1 = k then (k, v) else p)
  else st ++ [(k, v)]

/-- `save_data(url, data, save_as_file)` (lines 20-65).  With
save_as_file=True the previously cached document at the leaf path is
read (raising on unreadable content) and merged via `mergeCached`; with
save_as_file=False the fresh document is written verbatim. -/
def save_data (store : Store) (url : String) (data : Doc)
    (save_as_file : Bool) : Except Err Store :=
  if save_as_file then
    let file_path := leafPath url
    match readStore store file_path with
    | some .malformed => .error .jsonDecode
    | some (.doc old_data) =>
      match mergeCached old_data data with
      | .error e => .error e
      | .ok merged => .ok (writeStore store file_path (.doc merged))
    | none => .ok (writeStore store file_path (.doc data))
  else
    .ok (writeStore store (containerPath url) (.doc data))

/-! ### The graph walker -/

/-- The crawl state: the file store, the registry
`aggregated_data['indexes']` (a Python dict, so an insertion-ordered
association list), plus ghost logs of every `fetch_data` call and every
completed `save_data` call (url and save_as_file flag). -/
structure CrawlSt where
  store : Store
  indexes : List (String × Doc)
  fetched : List String
  persisted : List (String × Bool)
deriving DecidableEq, Repr

/-- Outcome of a stateful step.  Python mutates the registry and the file
system in place, so an uncaught exception still leaves the effects
performed before the raise: `err` carries the state at raise time. -/
inductive CrawlOut where
  | ok (st : CrawlSt)
  | err (e : Err) (st : CrawlSt)
deriving DecidableEq, Repr

/-- The registry's key list. -/
def registryKeys (st : CrawlSt) : List String :=
  st.indexes.map Prod.fst

/-- Lines 107-108: insert into the registry unless the URL is already a
key.  This guard protects only the dictionary entry; it is evaluated
after the fetch and the save and does not gate the recursion below it. -/
def registerUrl (st : CrawlSt) (url : String) (data : Doc) : CrawlSt :=
  if url ∈ registryKeys st then st
  else { st with indexes := st.indexes ++ [(url, data)] }

/-- One iteration of the loop over `data.get('@graph', [])`
(lines 110-118), parametric in the recursive call `rec`. -/
def stepItem (rec : String → Bool → CrawlSt → CrawlOut) (url : String)
    (item : Node) (st : CrawlSt) : CrawlOut :=
  if item.id = some url then .ok st
  else if item.type = some "ex:PropertyIndexRegistration" then
    match pyTruthy item.instancesIn with
    | some v => rec v true st
    | none =>
      match pyTruthy item.seeAlso with
      | some v => rec v true st
      | none => .ok st
  else if item.type = some "ex:Index" then
    match item.id with
    | none => .err .keyError st
    | some i => rec i false st
  else .ok st

/-- The loop over a fetched document's graph items, parametric in the
recursive call. -/
def processItemsAux (rec : String → Bool → CrawlSt → CrawlOut)
    (url : String) : List Node → CrawlSt → CrawlOut
  | [], st => .ok st
  | item :: rest, st =>
    match stepItem rec url item st with
    | .ok st' => processItemsAux rec url rest st'
    | .err e st' => .err e st'

/-- `process_indexes(url, aggregated_data, save_as_file)` (lines
102-118) with explicit fuel: fetch, save, register (guarded), then
recurse over the graph items.  `env url = none` models a transport
error raised by `fetch_data`. -/
def processIndexes (env : String → Option Doc) :
    Nat → String → Bool → CrawlSt → CrawlOut
  | 0, _, _, st => .err .fuel st
  | n + 1, url, save_as_file, st =>
    match env url with
    | none => .err .transport st
    | some data =>
      let st1 : CrawlSt := { st with fetched := st.fetched ++ [url] }
      match save_data st1.store url data save_as_file with
      | .error e => .err e st1
      | .ok store' =>
        let st2 : CrawlSt :=
          { st1 with store := store',
                     persisted := st1.persisted ++ [(url, save_as_file)] }
        processItemsAux (processIndexes env n) url data.graph
          (registerUrl st2 url data)

/-! ### Per-server orchestration -/

/-- `get_public_type_index(root_data)` (lines 80-85): the
'solid:publicTypeIndex' value of the first graph item carrying that key
(key-presence test, so even a falsy value is returned). -/
def get_public_type_index (root_data : Doc) : Option String :=
  (root_data.graph.find? (fun item => item.publicTypeIndex.isSome)).bind
    Node.publicTypeIndex

/-- Loop body of `get_instance_containers`: bracket access to
'solid:instanceContainer' raises `KeyError` when the field is absent. -/
def instanceContainersGo (acc : List String) :
    List Node → Except Err (List String)
  | [] => .ok acc
  | item :: rest =>
    if item.type = some "solid:TypeIndexRegistration" ∧
        item.forClass = some "ex:Index" then
      match item.instanceContainer with
      | none => .error .keyError
      | some c => instanceContainersGo (acc ++ [c]) rest
    else instanceContainersGo acc rest

/-- `get_instance_containers(public_type_index_data)` (lines 87-93). -/
def get_instance_containers (d : Doc) : Except Err (List String) :=
  instanceContainersGo [] d.graph

/-- The loop over instance containers (lines 146-148): each container is
expanded with save_as_file=False; an exception aborts the loop carrying
the state reached so far. -/
def runContainers (env : String → Option Doc) (fuel : Nat) :
    List String → CrawlSt → CrawlOut
  | [], st => .ok st
  | c :: rest, st =>
    match processIndexes env fuel c false st with
    | .ok st' => runContainers env fuel rest st'
    | .err e st' => .err e st'

/-- The body of the per-server try block in `aggregate_data` (lines
129-148): fetch and save the root, resolve the public type index
(a missing or falsy pointer ends the server's contribution without
error), fetch it, collect instance containers, expand each. -/
def serverStep (env : String → Option Doc) (fuel : Nat) (server : String)
    (st : CrawlSt) : CrawlOut :=
  match env server with
  | none => .err .transport st
  | some root_data =>
    let st1 : CrawlSt := { st with fetched := st.fetched ++ [server] }
    match save_data st1.store server root_data false with
    | .error e => .err e st1
    | .ok store' =>
      let st2 : CrawlSt :=
        { st1 with store := store',
                   persisted := st1.persisted ++ [(server, false)] }
      match pyTruthy (get_public_type_index root_data) with
      | none => .ok st2
      | some pti_url =>
        match env pti_url with
        | none => .err .transport { st2 with fetched := st2.fetched ++ [pti_url] }
        | some pti_data =>
          let st3 : CrawlSt := { st2 with fetched := st2.fetched ++ [pti_url] }
          match get_instance_containers pti_data with
          | .error e => .err e st3
          | .ok containers => runContainers env fuel containers st3

/-- The loop of `aggregate_data` over the configured servers (lines
127-152): `except requests.RequestException` catches exactly transport
errors, keeping the state already accumulated and moving to the next
server; every other exception propagates and aborts the run. -/
def aggregateGo (env : String → Option Doc) (fuel : Nat) :
    List String → CrawlSt → CrawlOut
  | [], st => .ok st
  | server :: rest, st =>
    match serverStep env fuel server st with
    | .ok st' => aggregateGo env fuel rest st'
    | .err .transport st' => aggregateGo env fuel rest st'
    | .err e st' => .err e st'

/-- `aggregate_data()` (lines 120-154), starting from an empty registry
and a given durable store. -/
def aggregate_data (env : String → Option Doc) (fuel : Nat)
    (servers : List String) (store : Store) : CrawlOut :=
  aggregateGo env fuel servers ⟨store, [], [], []⟩

/-- The exception carried by an outcome, if any. -/
def errOf : CrawlOut → Option Err
  | .ok _ => none
  | .err e _ => some e

/-- The state carried by an outcome (the state at raise time for an
exceptional outcome). -/
def stateOf : CrawlOut → CrawlSt
  | .ok st => st
  | .err _ st => st

/-- Every entry of a graph dict binds an item under its own "@id". -/
def GoodDict (d : List (String × Node)) : Prop :=
  ∀ p ∈ d, p.2.id = some p.1

/-! ### Concrete documents used in counterexamples and witnesses -/

/-- Node with "@id" A only. -/
def nA : Node := { blankNode with id := some "A" }

/-- Node with "@id" B only. -/
def nB : Node := { blankNode with id := some "B" }

/-- Node with "@id" C only. -/
def nC : Node := { blankNode with id := some "C" }

/-- Cached document with reference set containing A and B. -/
def docOldAB : Doc := ⟨some "ctxOld", none, none, [nA, nB]⟩

/-- Fresh document with reference set containing only B. -/
def docNewB : Doc := ⟨some "ctxNew", none, none, [nB]⟩

/-- Fresh document with reference set containing B and C. -/
def docNewBC : Doc := ⟨some "ctxNew", none, none, [nB, nC]⟩

/-- The document `mergeCached docOldAB docNewBC` produces. -/
def docMergedABC : Doc := ⟨some "ctxOld", none, none, [nA, nB, nC]⟩

/-- Document whose single graph node has no "@id". -/
def docNoId : Doc := ⟨none, none, none, [blankNode]⟩

end SolidIndexer

deriving instance DecidableEq for Except

namespace SolidIndexer

/-! ### Dictionary lemmas -/

lemma keys_insertDict_of_mem (d : List (String × Node)) (k : String)
    (v : Node) (hk : k ∈ d.map Prod.fst) :
    (insertDict d k v).map Prod.fst = d.map Prod.fst := by
  unfold insertDict
  rw [if_pos hk, List.map_map]
  apply List.map_congr_left
  intro p _
  by_cases h : p.1 = k <;> simp [h]

lemma keys_insertDict_of_not_mem (d : List (String × Node)) (k : String)
    (v : Node) (hk : k ∉ d.map Prod.fst) :
    (insertDict d k v).map Prod.fst = d.map Prod.fst ++ [k] := by
  unfold insertDict
  rw [if_neg hk]
  simp

lemma mem_keys_insertDict (d : List (String × Node)) (k x : String)
    (v : Node) :
    x ∈ (insertDict d k v).map Prod.fst ↔ x ∈ d.map Prod.fst ∨ x = k := by
  by_cases hk : k ∈ d.map Prod.fst
  · rw [keys_insertDict_of_mem d k v hk]
    exact ⟨Or.inl, fun h => h.elim id (fun hx => hx ▸ hk)⟩
  · rw [keys_insertDict_of_not_mem d k v hk]
    simp

lemma mem_keys_mergeDicts (b a : List (String × Node)) (x : String) :
    x ∈ (mergeDicts a b).map Prod.fst ↔
      x ∈ a.map Prod.fst ∨ x ∈ b.map Prod.fst := by
  induction b generalizing a with
  | nil => simp [mergeDicts]
  | cons p bs ih =>
    have hstep : mergeDicts a (p :: bs) = mergeDicts (insertDict a p.1 p.2) bs := rfl
    rw [hstep, ih, mem_keys_insertDict]
    simp only [List.map_cons, List.mem_cons]
    tauto

lemma goodDict_insertDict (d : List (String × Node)) (k : String) (v : Node)
    (hd : GoodDict d) (hv : v.id = some k) : GoodDict (insertDict d k v) := by
  unfold insertDict
  split
  · intro p hp
    rcases List.mem_map.1 hp with ⟨q, hq, hqp⟩
    by_cases h : q.1 = k
    · simp only [h, if_pos rfl] at hqp
      rw [← hqp]
      exact hv
    · simp only [if_neg h] at hqp
      rw [← hqp]
      exact hd q hq
  · intro p hp
    rcases List.mem_append.1 hp with h | h
    · exact hd p h
    · simp only [List.mem_singleton] at h
      rw [h]
      exact hv

lemma goodDict_mergeDicts (b a : List (String × Node)) (ha : GoodDict a)
    (hb : GoodDict b) : GoodDict (mergeDicts a b) := by
  induction b generalizing a with
  | nil => exact ha
  | cons p bs ih =>
    have hstep : mergeDicts a (p :: bs) = mergeDicts (insertDict a p.1 p.2) bs := rfl
    rw [hstep]
    exact ih (insertDict a p.1 p.2)
      (goodDict_insertDict a p.1 p.2 ha (hb p (List.mem_cons_self p bs)))
      (fun q hq => hb q (List.mem_cons_of_mem p hq))

lemma goodDict_graphDictGo (g : List Node) :
    ∀ acc d, GoodDict acc → graphDictGo acc g = .ok d → GoodDict d := by
  induction g with
  | nil =>
    intro acc d hacc h
    simp only [graphDictGo] at h
    cases h
    exact hacc
  | cons item rest ih =>
    intro acc d hacc h
    cases hid : item.id with
    | none => simp [graphDictGo, hid] at h
    | some k =>
      simp only [graphDictGo, hid] at h
      exact ih (insertDict acc k item) d
        (goodDict_insertDict acc k item hacc hid) h

lemma mem_keys_graphDictGo (g : List Node) :
    ∀ acc d, graphDictGo acc g = .ok d → ∀ x,
      x ∈ d.map Prod.fst ↔
        x ∈ acc.map Prod.fst ∨ ∃ nd ∈ g, nd.id = some x := by
  induction g with
  | nil =>
    intro acc d h x
    simp only [graphDictGo] at h
    cases h
    simp
  | cons item rest ih =>
    intro acc d h x
    cases hid : item.id with
    | none => simp [graphDictGo, hid] at h
    | some k =>
      simp only [graphDictGo, hid] at h
      rw [ih (insertDict acc k item) d h x, mem_keys_insertDict]
      simp only [List.mem_cons]
      constructor
      · rintro ((ha | hk) | ⟨nd, hnd, hx⟩)
        · exact Or.inl ha
        · exact Or.inr ⟨item, Or.inl rfl, by rw [hid, hk]⟩
        · exact Or.inr ⟨nd, Or.inr hnd, hx⟩
      · rintro (ha | ⟨nd, (hnd | hnd), hx⟩)
        · exact Or.inl (Or.inl ha)
        · rw [hnd, hid] at hx
          exact Or.inl (Or.inr (Option.some.inj hx).symm)
        · exact Or.inr ⟨nd, hnd, hx⟩

lemma mem_refsOf (g : List Node) (x : String) :
    x ∈ refsOf g ↔ ∃ nd ∈ g, nd.id = some x := by
  simp [refsOf, List.mem_filterMap]

lemma mem_keys_graphDict (g : List Node) (d : List (String × Node))
    (h : graphDict g = .ok d) (x : String) :
    x ∈ d.map Prod.fst ↔ x ∈ refsOf g := by
  rw [mem_keys_graphDictGo g [] d h x, mem_refsOf]
  simp

lemma mem_refsOf_values (d : List (String × Node)) (hd : GoodDict d)
    (x : String) : x ∈ refsOf (d.map Prod.snd) ↔ x ∈ d.map Prod.fst := by
  rw [mem_refsOf]
  constructor
  · rintro ⟨nd, hnd, hx⟩
    rcases List.mem_map.1 hnd with ⟨p, hp, hpd⟩
    have := hd p hp
    rw [hpd, hx] at this
    exact List.mem_map.2 ⟨p, hp, (Option.some.inj this).symm⟩
  · intro hx
    rcases List.mem_map.1 hx with ⟨p, hp, hpx⟩
    exact ⟨p.2, List.mem_map.2 ⟨p, hp, rfl⟩, by rw [hd p hp, hpx]⟩

/-! ### Claims about the merge engine -/

/-- C1 (counterexample): with cached reference set containing A and B
and fresh reference set containing only B, `diff_references` is empty,
so the merge returns the fresh document unchanged: the cached reference
A is discarded and the result is not the union of the two sets. -/
theorem c1_counterexample :
    mergeCached docOldAB docNewB = .ok docNewB ∧
    "A" ∈ refsOf docOldAB.graph ∧
    "A" ∉ refsOf docNewB.graph := by decide

/-- C1 (amended): whenever the fresh document contributes at least one
reference absent from the cached one (diff_references nonempty), the
merged document's reference set is exactly the union of the old and new
reference sets. -/
theorem c1_merge_refs_union (old_data data m : Doc) (ds : Finset String)
    (hd : diff_references old_data data = .ok ds) (hne : ds ≠ ∅)
    (hm : mergeCached old_data data = .ok m) :
    refsOf m.graph = refsOf old_data.graph ∪ refsOf data.graph := by
  unfold mergeCached at hm
  rw [hd] at hm
  simp only [if_neg hne] at hm
  cases hog : graphDict old_data.graph with
  | error e =>
    cases hng : graphDict data.graph with
    | error e2 => rw [hog, hng] at hm; cases hm
    | ok ng => rw [hog, hng] at hm; cases hm
  | ok og =>
    cases hng : graphDict data.graph with
    | error e => rw [hog, hng] at hm; cases hm
    | ok ng =>
      rw [hog, hng] at hm
      cases hm
      have hgood : GoodDict (mergeDicts og ng) :=
        goodDict_mergeDicts ng og
          (goodDict_graphDictGo old_data.graph [] og (by intro p hp; cases hp) hog)
          (goodDict_graphDictGo data.graph [] ng (by intro p hp; cases hp) hng)
      ext x
      rw [Finset.mem_union, ← mem_keys_graphDict old_data.graph og hog x,
        ← mem_keys_graphDict data.graph ng hng x]
      exact (mem_refsOf_values (mergeDicts og ng) hgood x).trans
        (mem_keys_mergeDicts ng og x)

/-- C1 (witness): old reference set with A and B, new with B and C;
the merged document's reference set is their union. -/
theorem c1_merge_refs_union_witness :
    refsOf docMergedABC.graph = refsOf docOldAB.graph ∪ refsOf docNewBC.graph :=
  c1_merge_refs_union docOldAB docNewBC docMergedABC {"C"}
    (by decide) (by decide) (by decide)

/-- C6 (counterexample): when the merge branch runs, the resulting
document's "@context" is the OLD document's, not the new one's, so the
merged result's non-reference top-level fields are not a copy of the
new document's fields. -/
theorem c6_counterexample :
    mergeCached docOldAB docNewBC = .ok docMergedABC ∧
    docMergedABC ≠ docNewBC ∧
    docNewBC.context = some "ctxNew" ∧
    docMergedABC.context ≠ docNewBC.context := by decide

/-- C6 (amended): whenever the merge branch runs (diff_references
nonempty), the result consists of exactly an "@context" taken from the
OLD document and the merged "@graph"; the new document's other
top-level fields ("@id", "@type") are dropped rather than copied. -/
theorem c6_merge_shape (old_data data m : Doc) (ds : Finset String)
    (hd : diff_references old_data data = .ok ds) (hne : ds ≠ ∅)
    (hm : mergeCached old_data data = .ok m) :
    m.context = old_data.context ∧ m.id = none ∧ m.type = none := by
  unfold mergeCached at hm
  rw [hd] at hm
  simp only [if_neg hne] at hm
  cases hog : graphDict old_data.graph with
  | error e =>
    cases hng : graphDict data.graph with
    | error e2 => rw [hog, hng] at hm; cases hm
    | ok ng => rw [hog, hng] at hm; cases hm
  | ok og =>
    cases hng : graphDict data.graph with
    | error e => rw [hog, hng] at hm; cases hm
    | ok ng =>
      rw [hog, hng] at hm
      cases hm
      exact ⟨rfl, rfl, rfl⟩

/-- C6 (witness): the merge of the concrete documents keeps the old
context and drops "@id" and "@type". -/
theorem c6_merge_shape_witness :
    docMergedABC.context = docOldAB.context ∧
    docMergedABC.id = none ∧ docMergedABC.type = none :=
  c6_merge_shape docOldAB docNewBC docMergedABC {"C"}
    (by decide) (by decide) (by decide)

/-- C7 (counterexample): two distinct resource URLs on different hosts
share the same persistence key, and a leaf save of the second URL is
merged against the document cached for the first one. -/
theorem c7_counterexample :
    "http://localhost:8000/foo" ≠ "http://localhost:8001/foo" ∧
    leafPath "http://localhost:8000/foo" = leafPath "http://localhost:8001/foo" ∧
    save_data [("foo.jsonld", CacheEntry.doc docOldAB)]
        "http://localhost:8001/foo" docNewBC true =
      .ok [("foo.jsonld", CacheEntry.doc docMergedABC)] := by decide

/-- C7 (amended): persistence keys are derived from the URL's path
component alone, so keys are distinct exactly when the stripped paths
are; distinct URLs with equal paths (e.g. on different hosts) collide. -/
theorem c7_key_from_path (u v : String)
    (h : rstripSlash (lstripSlash (urlPath u)) ≠ rstripSlash (lstripSlash (urlPath v))) :
    leafPath u ≠ leafPath v := by
  intro heq
  apply h
  unfold leafPath at heq
  have hd := congrArg String.data heq
  simp only [String.data_append] at hd
  exact String.ext (List.append_cancel_right hd)

/-- C7 (witness): URLs with distinct paths get distinct leaf keys. -/
theorem c7_key_from_path_witness :
    leafPath "http://h/a" ≠ leafPath "http://h/b" :=
  c7_key_from_path "http://h/a" "http://h/b" (by decide)

/-- C8 (counterexample): an unreadable cached document is not treated
as absent: the leaf save raises the parse error instead of persisting
the fresh document. -/
theorem c8_counterexample :
    save_data [("bar.jsonld", CacheEntry.malformed)] "http://h/bar" docNewB true
      = .error .jsonDecode ∧
    save_data [("bar.jsonld", CacheEntry.malformed)] "http://h/bar" docNewB true
      ≠ .ok (writeStore [("bar.jsonld", CacheEntry.malformed)] "bar.jsonld"
          (CacheEntry.doc docNewB)) := by decide

/-- C8 (amended): whenever the previously cached file at the leaf key is
unreadable, `save_data` with save_as_file=True raises the parse error
(json.load is not guarded); the new document is not persisted. -/
theorem c8_malformed_raises (store : Store) (url : String) (data : Doc)
    (h : readStore store (leafPath url) = some CacheEntry.malformed) :
    save_data store url data true = .error .jsonDecode := by
  unfold save_data
  simp [h]

/-- C8 (witness): a concrete malformed cached file raises. -/
theorem c8_malformed_raises_witness :
    save_data [("foo.jsonld", CacheEntry.malformed)] "http://h/foo" docNewB true
      = .error .jsonDecode :=
  c8_malformed_raises [("foo.jsonld", CacheEntry.malformed)] "http://h/foo"
    docNewB (by decide)

/-- C9 (confirmed): a graph node whose type discriminator is neither
"ex:PropertyIndexRegistration" nor "ex:Index" is a no-op in the
expansion loop: no recursive call, no state change, no error — the loop
continues with the remaining nodes as if the node were not there. -/
theorem c9_unknown_type_noop (rec : String → Bool → CrawlSt → CrawlOut)
    (url : String) (item : Node) (rest : List Node) (st : CrawlSt)
    (h1 : item.type ≠ some "ex:PropertyIndexRegistration")
    (h2 : item.type ≠ some "ex:Index") :
    processItemsAux rec url (item :: rest) st = processItemsAux rec url rest st := by
  have hstep : stepItem rec url item st = .ok st := by
    unfold stepItem
    by_cases hid : item.id = some url
    · rw [if_pos hid]
    · rw [if_neg hid, if_neg h1, if_neg h2]
  simp only [processItemsAux, hstep]

/-- C9 (witness): a node typed "ex:Unknown" is skipped by the loop. -/
theorem c9_unknown_type_noop_witness :
    processItemsAux (fun _ _ s => CrawlOut.ok s) "http://s/x"
        [{ blankNode with id := some "n", type := some "ex:Unknown" }]
        ⟨[], [], [], []⟩
      = CrawlOut.ok ⟨[], [], [], []⟩ := by
  rw [c9_unknown_type_noop (fun _ _ s => CrawlOut.ok s) "http://s/x"
    { blankNode with id := some "n", type := some "ex:Unknown" } []
    ⟨[], [], [], []⟩ (by decide) (by decide)]
  rfl

/-- Document whose single graph node is typed "ex:Index" but has no
"@id". -/
def docIdxNoId : Doc := ⟨none, none, none, [{ blankNode with type := some "ex:Index" }]⟩

/-- Environment serving `docIdxNoId` at a single URL. -/
def envIdxNoId : String → Option Doc :=
  fun u => if u = "http://s/IX" then some docIdxNoId else none

/-- C10 (confirmed): a graph node without "@id" makes the operations
raise `KeyError` rather than skip the node: `diff_references` raises on
such a cached document, the leaf save raises while merging against it,
and expansion raises on an "ex:Index"-typed node without "@id". -/
theorem c10_missing_id_errors :
    diff_references docNoId docNewB = .error .keyError ∧
    save_data [("leaf.jsonld", CacheEntry.doc docNoId)] "http://h/leaf"
        docNewB true = .error .keyError ∧
    errOf (processIndexes envIdxNoId 3 "http://s/IX" false ⟨[], [], [], []⟩)
      = some .keyError := by decide

/-! ### The cyclic index graph (claim C2) -/

/-- URL of the first index in the two-node cycle. -/
def cycA : String := "http://s/A"

/-- URL of the second index in the two-node cycle. -/
def cycB : String := "http://s/B"

/-- Index document at `cycA`: its single child is the index at `cycB`. -/
def docCycA : Doc :=
  ⟨none, none, none, [{ blankNode with id := some cycB, type := some "ex:Index" }]⟩

/-- Index document at `cycB`: its single child points back at `cycA`. -/
def docCycB : Doc :=
  ⟨none, none, none, [{ blankNode with id := some cycA, type := some "ex:Index" }]⟩

/-- Environment of the cyclic graph: two indexes pointing at each
other. -/
def envCycle : String → Option Doc :=
  fun u => if u = cycA then some docCycA else if u = cycB then some docCycB else none

lemma save_data_container (s : Store) (url : String) (data : Doc) :
    save_data s url data false =
      .ok (writeStore s (containerPath url) (CacheEntry.doc data)) := by
  simp [save_data]

lemma cycleStepA (n : Nat) (st : CrawlSt) :
    ∃ st1, processIndexes envCycle (n + 1) cycA false st =
      processItemsAux (processIndexes envCycle n) cycA docCycA.graph st1 := by
  have henv : envCycle cycA = some docCycA := by decide
  simp only [processIndexes, henv, save_data_container]
  exact ⟨_, rfl⟩

lemma cycleStepB (n : Nat) (st : CrawlSt) :
    ∃ st1, processIndexes envCycle (n + 1) cycB false st =
      processItemsAux (processIndexes envCycle n) cycB docCycB.graph st1 := by
  have henv : envCycle cycB = some docCycB := by decide
  simp only [processIndexes, henv, save_data_container]
  exact ⟨_, rfl⟩

lemma itemsCycA (rec : String → Bool → CrawlSt → CrawlOut) (st : CrawlSt) :
    processItemsAux rec cycA docCycA.graph st =
      match rec cycB false st with
      | .ok s => .ok s
      | .err e s => .err e s := by
  have hstep : stepItem rec cycA { blankNode with id := some cycB, type := some "ex:Index" } st
      = rec cycB false st := by
    unfold stepItem
    rw [if_neg (by decide), if_neg (by decide), if_pos (by decide)]
  show (match stepItem rec cycA { blankNode with id := some cycB, type := some "ex:Index" } st with
    | .ok s => processItemsAux rec cycA [] s
    | .err e s => .err e s) = _
  rw [hstep]
  cases rec cycB false st <;> rfl

lemma itemsCycB (rec : String → Bool → CrawlSt → CrawlOut) (st : CrawlSt) :
    processItemsAux rec cycB docCycB.graph st =
      match rec cycA false st with
      | .ok s => .ok s
      | .err e s => .err e s := by
  have hstep : stepItem rec cycB { blankNode with id := some cycA, type := some "ex:Index" } st
      = rec cycA false st := by
    unfold stepItem
    rw [if_neg (by decide), if_neg (by decide), if_pos (by decide)]
  show (match stepItem rec cycB { blankNode with id := some cycA, type := some "ex:Index" } st with
    | .ok s => processItemsAux rec cycB [] s
    | .err e s => .err e s) = _
  rw [hstep]
  cases rec cycA false st <;> rfl

lemma cycle_fuel : ∀ n : Nat, ∀ st : CrawlSt,
    errOf (processIndexes envCycle n cycA false st) = some Err.fuel ∧
    errOf (processIndexes envCycle n cycB false st) = some Err.fuel := by
  intro n
  induction n with
  | zero => intro st; exact ⟨rfl, rfl⟩
  | succ n ih =>
    intro st
    constructor
    · obtain ⟨st1, heq⟩ := cycleStepA n st
      rw [heq, itemsCycA]
      have hb := (ih st1).2
      cases hB : processIndexes envCycle n cycB false st1 with
      | ok s => rw [hB] at hb; simp [errOf] at hb
      | err e s =>
        rw [hB] at hb
        simp only [errOf, Option.some.injEq] at hb
        simp [errOf, hb]
    · obtain ⟨st1, heq⟩ := cycleStepB n st
      rw [heq, itemsCycB]
      have ha := (ih st1).1
      cases hA : processIndexes envCycle n cycA false st1 with
      | ok s => rw [hA] at ha; simp [errOf] at ha
      | err e s =>
        rw [hA] at ha
        simp only [errOf, Option.some.injEq] at ha
        simp [errOf, ha]

/-- C2 (code bug): on an index graph with a node pointing back at an
ancestor's URL, recursive expansion does NOT terminate: for every fuel
budget the run is still recursing (the registry membership check on
line 107 only guards the dictionary insertion and is performed after
the fetch, not before the re-entrant recursive calls), and the same URL
is fetched over and over (with fuel 9, cycA is fetched 5 times). -/
theorem c2_cycle_no_termination :
    (∀ (n : Nat) (st : CrawlSt),
      errOf (processIndexes envCycle n cycA false st) = some Err.fuel) ∧
    (stateOf (processIndexes envCycle 9 cycA false ⟨[], [], [], []⟩)).fetched.count cycA = 5 := by
  refine ⟨fun n st => (cycle_fuel n st).1, by decide⟩

/-! ### Registry invariants (claim C3) -/

lemma registryKeys_registerUrl (st : CrawlSt) (url : String) (data : Doc) :
    registryKeys (registerUrl st url data) =
      if url ∈ registryKeys st then registryKeys st
      else registryKeys st ++ [url] := by
  unfold registerUrl
  split <;> simp [registryKeys]

lemma mem_registryKeys_registerUrl_self (st : CrawlSt) (url : String)
    (data : Doc) : url ∈ registryKeys (registerUrl st url data) := by
  rw [registryKeys_registerUrl]
  split
  · assumption
  · simp

lemma mem_registryKeys_registerUrl_of_mem (st : CrawlSt) (url x : String)
    (data : Doc) (hx : x ∈ registryKeys st) :
    x ∈ registryKeys (registerUrl st url data) := by
  rw [registryKeys_registerUrl]
  split <;> simp [hx]

lemma nodup_registryKeys_registerUrl (st : CrawlSt) (url : String)
    (data : Doc) (hd : (registryKeys st).Nodup) :
    (registryKeys (registerUrl st url data)).Nodup := by
  rw [registryKeys_registerUrl]
  split
  · exact hd
  · next h => simp [List.nodup_append, hd, h]

/-- The key-preservation property a recursive call must satisfy. -/
def PreservesKeys (f : String → Bool → CrawlSt → CrawlOut) : Prop :=
  ∀ u b s s', f u b s = .ok s' →
    ((registryKeys s).Nodup → (registryKeys s').Nodup) ∧
    ∀ x, x ∈ registryKeys s → x ∈ registryKeys s'

lemma stepItem_keys (rec : String → Bool → CrawlSt → CrawlOut)
    (hrec : PreservesKeys rec) (url : String) (item : Node) (s s' : CrawlSt)
    (h : stepItem rec url item s = .ok s') :
    ((registryKeys s).Nodup → (registryKeys s').Nodup) ∧
    ∀ x, x ∈ registryKeys s → x ∈ registryKeys s' := by
  unfold stepItem at h
  split at h
  · cases h; exact ⟨fun hd => hd, fun x hx => hx⟩
  · split at h
    · split at h
      · exact hrec _ _ _ _ h
      · split at h
        · exact hrec _ _ _ _ h
        · cases h; exact ⟨fun hd => hd, fun x hx => hx⟩
    · split at h
      · split at h
        · cases h
        · exact hrec _ _ _ _ h
      · cases h; exact ⟨fun hd => hd, fun x hx => hx⟩

lemma processItemsAux_keys (rec : String → Bool → CrawlSt → CrawlOut)
    (hrec : PreservesKeys rec) (items : List Node) :
    ∀ url s s', processItemsAux rec url items s = .ok s' →
      ((registryKeys s).Nodup → (registryKeys s').Nodup) ∧
      ∀ x, x ∈ registryKeys s → x ∈ registryKeys s' := by
  induction items with
  | nil =>
    intro url s s' h
    simp only [processItemsAux] at h
    cases h
    exact ⟨fun hd => hd, fun x hx => hx⟩
  | cons item rest ih =>
    intro url s s' h
    simp only [processItemsAux] at h
    cases hst : stepItem rec url item s with
    | ok s1 =>
      rw [hst] at h
      obtain ⟨hn1, hm1⟩ := stepItem_keys rec hrec url item s s1 hst
      obtain ⟨hn2, hm2⟩ := ih url s1 s' h
      exact ⟨fun hd => hn2 (hn1 hd), fun x hx => hm2 x (hm1 x hx)⟩
    | err e s1 =>
      rw [hst] at h
      cases h

lemma processIndexes_keys (env : String → Option Doc) :
    ∀ (n : Nat) (url : String) (saf : Bool) (st st' : CrawlSt),
      processIndexes env n url saf st = .ok st' →
      (((registryKeys st).Nodup → (registryKeys st').Nodup) ∧
        (∀ x, x ∈ registryKeys st → x ∈ registryKeys st')) ∧
      url ∈ registryKeys st' := by
  intro n
  induction n with
  | zero =>
    intro url saf st st' h
    exact CrawlOut.noConfusion h
  | succ n ih =>
    intro url saf st st' h
    simp only [processIndexes] at h
    cases henv : env url with
    | none =>
      simp only [henv] at h
      exact CrawlOut.noConfusion h
    | some data =>
      simp only [henv] at h
      cases hsv : save_data st.store url data saf with
      | error e =>
        simp only [hsv] at h
        exact CrawlOut.noConfusion h
      | ok store' =>
        simp only [hsv] at h
        have hrec : PreservesKeys (processIndexes env n) :=
          fun u b s s' hh => (ih u b s s' hh).1
        obtain ⟨hn, hm⟩ := processItemsAux_keys (processIndexes env n) hrec
          data.graph url _ st' h
        refine ⟨⟨?_, ?_⟩, ?_⟩
        · intro hd
          exact hn (nodup_registryKeys_registerUrl _ url data hd)
        · intro x hx
          exact hm x (mem_registryKeys_registerUrl_of_mem _ url x data hx)
        · exact hm url (mem_registryKeys_registerUrl_self _ url data)

/-- URL of a terminal index document used as witness input. -/
def urlW : String := "http://w/x"

/-- A terminal document with no graph body, typed as a property index. -/
def docW : Doc := ⟨none, some urlW, some "ex:PropertyIndex", []⟩

/-- Environment serving only `docW` at `urlW`. -/
def envW : String → Option Doc :=
  fun u => if u = urlW then some docW else none

/-- URL of the container whose graph registers the same leaf twice. -/
def urlC : String := "http://s/C"

/-- URL of the leaf registered twice. -/
def urlL : String := "http://s/L"

/-- First property-index registration node, pointing at the leaf. -/
def nodeReg1 : Node :=
  { blankNode with id := some "r1", type := some "ex:PropertyIndexRegistration", instancesIn := some urlL }

/-- Second property-index registration node, pointing at the same leaf. -/
def nodeReg2 : Node :=
  { blankNode with id := some "r2", type := some "ex:PropertyIndexRegistration", instancesIn := some urlL }

/-- Container document carrying two property-index registrations that
both point (via "ex:instancesIn") at the same leaf URL. -/
def docC : Doc := ⟨none, none, none, [nodeReg1, nodeReg2]⟩

/-- Leaf document with an empty graph body. -/
def docL : Doc := ⟨none, some urlL, some "ex:PropertyIndex", []⟩

/-- Environment for the duplicate-registration scenario. -/
def envTwice : String → Option Doc :=
  fun u => if u = urlC then some docC else if u = urlL then some docL else none

/-- C3 (counterexample): when the same leaf URL is expanded twice within
one run, the second expansion fetches and persists it AGAIN (two fetches
and two leaf saves appear in the logs); only the registry insertion is
skipped, leaving exactly one registry entry. -/
theorem c3_counterexample :
    errOf (processIndexes envTwice 10 urlC false ⟨[], [], [], []⟩) = none ∧
    (stateOf (processIndexes envTwice 10 urlC false ⟨[], [], [], []⟩)).fetched.count urlL = 2 ∧
    (stateOf (processIndexes envTwice 10 urlC false ⟨[], [], [], []⟩)).persisted.count (urlL, true) = 2 ∧
    (registryKeys (stateOf (processIndexes envTwice 10 urlC false ⟨[], [], [], []⟩))).count urlL = 1 := by
  decide

/-- C3 (amended): revisiting a URL is idempotent only for the registry:
after any successful expansion started from a duplicate-free registry,
the registry holds exactly one entry for the expanded URL, however many
times it was fetched and persisted along the way. -/
theorem c3_registry_once (env : String → Option Doc) (n : Nat)
    (url : String) (saf : Bool) (st st' : CrawlSt)
    (h : processIndexes env n url saf st = .ok st')
    (hnd : (registryKeys st).Nodup) :
    (registryKeys st').count url = 1 := by
  obtain ⟨⟨hn, _⟩, hmem⟩ := processIndexes_keys env n url saf st st' h
  exact List.count_eq_one_of_mem (hn hnd) hmem

/-- C3 (witness): a concrete one-document run registers its URL exactly
once. -/
theorem c3_registry_once_witness :
    (registryKeys ⟨[("x.jsonld", CacheEntry.doc docW)], [(urlW, docW)],
      [urlW], [(urlW, false)]⟩).count urlW = 1 :=
  c3_registry_once envW 1 urlW false ⟨[], [], [], []⟩ _ (by decide) (by decide)

/-- C5 (counterexample): `docW` has no graph body and its own "@type"
is "ex:PropertyIndex", yet expanding its URL as a container candidate
performs exactly one persist, with save_as_file=false — it is NOT
additionally persisted with merge reconciliation (save_as_file=true). -/
theorem c5_counterexample :
    docW.graph = [] ∧
    docW.type = some "ex:PropertyIndex" ∧
    errOf (processIndexes envW 3 urlW false ⟨[], [], [], []⟩) = none ∧
    (stateOf (processIndexes envW 3 urlW false ⟨[], [], [], []⟩)).persisted
      = [(urlW, false)] := by decide

/-- C5 (amended): `process_indexes` never inspects the fetched
document's own type discriminator: a document with no graph body that is
expanded as a container candidate is fetched, persisted once in
overwrite mode, registered, and nothing more (no extra leaf-mode
persistence happens, whatever the document's "@type" is). -/
theorem c5_no_leaf_branch (env : String → Option Doc) (n : Nat)
    (url : String) (st : CrawlSt) (d : Doc)
    (henv : env url = some d) (hg : d.graph = []) :
    processIndexes env (n + 1) url false st =
      .ok (registerUrl
        { st with store := writeStore st.store (containerPath url) (CacheEntry.doc d),
                  fetched := st.fetched ++ [url],
                  persisted := st.persisted ++ [(url, false)] } url d) := by
  simp only [processIndexes, henv, save_data_container, hg, processItemsAux]

/-- C5 (witness): the concrete no-graph property-index document is
processed by a single overwrite-mode persist. -/
theorem c5_no_leaf_branch_witness :
    processIndexes envW (0 + 1) urlW false ⟨[], [], [], []⟩ =
      .ok (registerUrl
        ⟨writeStore [] (containerPath urlW) (CacheEntry.doc docW), [],
          [urlW], [(urlW, false)]⟩ urlW docW) :=
  c5_no_leaf_branch envW 0 urlW ⟨[], [], [], []⟩ docW (by decide) rfl

/-! ### The two-server aggregation scenario (claim C4) -/

/-- Root URL of the first (deep-failing) server. -/
def srvA : String := "http://sa/"

/-- Public type index URL of the first server. -/
def ptiA : String := "http://sa/ptiA"

/-- Instance container URL of the first server. -/
def contA : String := "http://sa/contA"

/-- Child index URL of the first server's container; fetching it raises
a transport error deep inside recursive expansion. -/
def idxX : String := "http://sa/x"

/-- Root URL of the second (healthy) server. -/
def srvB : String := "http://sb/"

/-- Public type index URL of the second server. -/
def ptiB : String := "http://sb/ptiB"

/-- Instance container URL of the second server. -/
def contB : String := "http://sb/contB"

/-- Root document of the first server. -/
def rootDocA : Doc := ⟨none, none, none, [{ blankNode with publicTypeIndex := some ptiA }]⟩

/-- Type index of the first server, registering `contA`. -/
def ptiDocA : Doc := ⟨none, none, none,
  [{ blankNode with type := some "solid:TypeIndexRegistration", forClass := some "ex:Index", instanceContainer := some contA }]⟩

/-- Container of the first server: one child index at `idxX`. -/
def contDocA : Doc := ⟨none, none, none,
  [{ blankNode with id := some idxX, type := some "ex:Index" }]⟩

/-- Root document of the second server. -/
def rootDocB : Doc := ⟨none, none, none, [{ blankNode with publicTypeIndex := some ptiB }]⟩

/-- Type index of the second server, registering `contB`. -/
def ptiDocB : Doc := ⟨none, none, none,
  [{ blankNode with type := some "solid:TypeIndexRegistration", forClass := some "ex:Index", instanceContainer := some contB }]⟩

/-- Container of the second server: no children. -/
def contDocB : Doc := ⟨none, none, none, []⟩

/-- Environment of the two-server scenario; `idxX` is unreachable. -/
def envAgg : String → Option Doc := fun u =>
  if u = srvA then some rootDocA
  else if u = ptiA then some ptiDocA
  else if u = contA then some contDocA
  else if u = srvB then some rootDocB
  else if u = ptiB then some ptiDocB
  else if u = contB then some contDocB
  else none

/-- C4 (counterexample): a transport error raised deep inside recursive
expansion of the first server's container does NOT abort the run: the
per-server handler catches it, the partial registry entry for `contA`
survives, and the second server is still crawled. -/
theorem c4_counterexample :
    envAgg idxX = none ∧
    errOf (processIndexes envAgg 5 contA false ⟨[], [], [], []⟩) = some .transport ∧
    errOf (aggregate_data envAgg 5 [srvA, srvB] []) = none ∧
    contA ∈ registryKeys (stateOf (aggregate_data envAgg 5 [srvA, srvB] [])) ∧
    contB ∈ registryKeys (stateOf (aggregate_data envAgg 5 [srvA, srvB] [])) := by
  decide

/-- C4 (amended): the per-server handler in `aggregate_data` catches a
transport error wherever it was raised inside the server's step —
including one propagating out of recursive expansion — keeps the state
reached so far, and continues the crawl with the remaining servers. -/
theorem c4_transport_caught_per_server (env : String → Option Doc)
    (fuel : Nat) (server : String) (rest : List String) (st st1 : CrawlSt)
    (h : serverStep env fuel server st = .err .transport st1) :
    aggregateGo env fuel (server :: rest) st = aggregateGo env fuel rest st1 := by
  simp only [aggregateGo, h]

/-- A totally unreachable network. -/
def envNone : String → Option Doc := fun _ => none

/-- C4 (witness): a server whose step raises a transport error is
skipped and the loop moves on. -/
theorem c4_transport_caught_per_server_witness :
    aggregateGo envNone 1 ["http://s/root"] ⟨[], [], [], []⟩ =
      aggregateGo envNone 1 [] ⟨[], [], [], []⟩ :=
  c4_transport_caught_per_server envNone 1 "http://s/root" [] ⟨[], [], [], []⟩
    ⟨[], [], [], []⟩ (by decide)

end SolidIndexer
